import Mathlib

/-!
Shallow embedding of the route-weather backend (src/backend/app.py) and
verification of the specified properties of its waypoint pipeline:
leg-wise step sampling, coordinate-key deduplication, downsampling,
and per-waypoint weather enrichment.

Conventions of the embedding:
* Python floats are modelled as exact rationals.
* Python `round(x, 4)` is modelled as round-half-to-even of the scaled value.
* Fallible Python code (expressions that can raise) is modelled with
  `Except String`; the message names the Python exception.
* The weather provider and the network are modelled as an oracle
  `Rat -> Rat -> ProviderOutcome`; `get_weather_data` additionally returns
  the number of network requests it issued (0 or 1).
-/

namespace RouteWeather

/-- A maneuver inside a leg, as consumed by route_weather: its end
coordinate and the optional html_instructions text. -/
structure RouteStep where
  end_lat : ℚ
  end_lng : ℚ
  html_instructions : Option String
deriving DecidableEq

/-- One leg of a directions result: boundary addresses and coordinates,
display distance and duration text, and the ordered list of steps. -/
structure RouteLeg where
  start_address : String
  start_lat : ℚ
  start_lng : ℚ
  end_address : String
  end_lat : ℚ
  end_lng : ℚ
  distance : String
  duration : String
  steps : List RouteStep
deriving DecidableEq

/-- A waypoint candidate as built by route_weather: display address and
coordinates. -/
structure Waypoint where
  address : String
  lat : ℚ
  lon : ℚ
deriving DecidableEq

/-- Embedding of the sampling interval from line 239 of app.py:
step_interval = max(1, len(steps) // 5) if len(steps) > 5 else len(steps). -/
def stepInterval (n : ℕ) : ℕ :=
  if n > 5 then max 1 (n / 5) else n

/-- Number of elements of the Python expression range(a, b, s) for s > 0. -/
def rangeLen (a b s : ℕ) : ℕ :=
  if b ≤ a then 0 else (b - a + s - 1) / s

/-- Embedding of Python range(a, b, s) for a nonnegative stride: raises
ValueError when the stride is 0, as range does. -/
def pyRange (a b s : ℕ) : Except String (List ℕ) :=
  if s = 0 then Except.error "ValueError: range() arg 3 must not be zero"
  else Except.ok (List.range' a (rangeLen a b s) s)

/-- Step indices visited by the sampling loop on line 241 of app.py:
range(0, len(steps), step_interval). -/
def sampleIndices (n : ℕ) : Except String (List ℕ) :=
  pyRange 0 n (stepInterval n)

/-- The steps of a leg actually visited by the sampling loop
(lines 236-248 of app.py). -/
def sampleSteps (steps : List RouteStep) : Except String (List RouteStep) :=
  match sampleIndices steps.length with
  | Except.error e => Except.error e
  | Except.ok idxs => Except.ok (idxs.filterMap fun i => steps[i]?)

/-- Waypoint built from a sampled step (lines 243-248 of app.py):
html_instructions with default label, and the step end location. -/
def stepWaypoint (st : RouteStep) : Waypoint :=
  { address := st.html_instructions.getD "Waypoint"
    lat := st.end_lat
    lon := st.end_lng }

/-- Round half to even at integer precision, the behaviour of Python round
on an exact value. -/
def pyRoundInt (x : ℚ) : ℤ :=
  let n : ℤ := ⌊x⌋
  let r : ℚ := x - n
  if r < 1/2 then n
  else if 1/2 < r then n + 1
  else if n % 2 = 0 then n else n + 1

/-- Embedding of Python round(x, 4) on an exact value. -/
def pyRound4 (x : ℚ) : ℚ :=
  (pyRoundInt (x * 10000) : ℚ) / 10000

/-- The dedup key of line 262 of app.py:
(round(wp[lat], 4), round(wp[lon], 4)). -/
def coordKey (w : Waypoint) : ℚ × ℚ :=
  (pyRound4 w.lat, pyRound4 w.lon)

/-- The deduplication loop of lines 259-265 of app.py with its seen_coords
set made explicit. -/
def dedupAux (seen : List (ℚ × ℚ)) : List Waypoint → List Waypoint
  | [] => []
  | w :: ws =>
    if coordKey w ∈ seen then dedupAux seen ws
    else w :: dedupAux (coordKey w :: seen) ws

/-- Deduplication pass of route_weather: keep each first occurrence of a
coordinate key, in input order. -/
def dedup (ws : List Waypoint) : List Waypoint :=
  dedupAux [] ws

/-- Indices kept by the downsampling block for an input of length n > 10
(lines 268-275 of app.py): index 0, then range(step, n - 1, step) with
step = n // 9, then index n - 1. -/
def downsampleIdx (n : ℕ) : List ℕ :=
  0 :: (List.range' (n / 9) (rangeLen (n / 9) (n - 1) (n / 9)) (n / 9) ++ [n - 1])

/-- The downsampling step of route_weather (lines 267-275 of app.py): a
no-op for 10 or fewer elements, otherwise the elements at downsampleIdx. -/
def downsample {α : Type} (l : List α) : List α :=
  if l.length > 10 then (downsampleIdx l.length).filterMap fun i => l[i]?
  else l

/-- Intermediate waypoints contributed by one leg: the sampled steps turned
into waypoints. -/
def legMidWaypoints (leg : RouteLeg) : Except String (List Waypoint) :=
  match sampleSteps leg.steps with
  | Except.error e => Except.error e
  | Except.ok sts => Except.ok (sts.map stepWaypoint)

/-- Intermediate waypoints of all legs in route order, propagating the
first exception as the Python loop does. -/
def allMidWaypoints : List RouteLeg → Except String (List Waypoint)
  | [] => Except.ok []
  | leg :: rest => do
    let a ← legMidWaypoints leg
    let b ← allMidWaypoints rest
    pure (a ++ b)

/-- Waypoint extraction of route_weather (lines 220-275 of app.py): start
point, sampled step endpoints of every leg, end point, then deduplication
and downsampling. -/
def extractWaypoints (legs : List RouteLeg) : Except String (List Waypoint) :=
  match legs with
  | [] => Except.error "IndexError: list index out of range"
  | l0 :: rest => do
    let mid ← allMidWaypoints (l0 :: rest)
    let lastLeg := (l0 :: rest).getLast (List.cons_ne_nil l0 rest)
    let startWp : Waypoint :=
      { address := l0.start_address, lat := l0.start_lat, lon := l0.start_lng }
    let endWp : Waypoint :=
      { address := lastLeg.end_address, lat := lastLeg.end_lat, lon := lastLeg.end_lng }
    pure (downsample (dedup (startWp :: (mid ++ [endWp]))))

/-- Decoded provider JSON as accessed by get_weather_data; a field is none
when the corresponding key path is absent from the document. -/
structure WeatherJson where
  mainTemp : Option ℚ
  mainHumidity : Option ℚ
  weatherMain : Option String
  weatherDescription : Option String
  windSpeed : Option ℚ
deriving DecidableEq

/-- Weather provider behaviour at one coordinate: a RequestException during
the GET, or an HTTP response with a status and a decoded JSON body
(none models an undecodable body). -/
inductive ProviderOutcome where
  | netError : ProviderOutcome
  | response : ℕ → Option WeatherJson → ProviderOutcome

/-- The five provider fields read on lines 104-108 of app.py. -/
structure WeatherReading where
  temp : ℚ
  conditionMain : String
  conditionDescription : String
  humidity : ℚ
  wind : ℚ
deriving DecidableEq

/-- Reading the provider JSON on lines 104-108 of app.py: any absent key
path raises, modelled as none. -/
def parseWeather (j : WeatherJson) : Option WeatherReading :=
  match j.mainTemp, j.weatherMain, j.weatherDescription, j.mainHumidity, j.windSpeed with
  | some t, some m, some d, some h, some w =>
    some { temp := t, conditionMain := m, conditionDescription := d, humidity := h, wind := w }
  | _, _, _, _, _ => none

/-- The successful weather dictionary of lines 103-109 of app.py. -/
def successDict (r : WeatherReading) : List (String × String) :=
  [("temperature", toString r.temp ++ "°C"),
   ("conditions", r.conditionMain),
   ("description", r.conditionDescription),
   ("humidity", toString r.humidity ++ "%"),
   ("wind_speed", toString r.wind ++ " m/s")]

/-- The dictionary returned on lines 80-85 of app.py when the key is not
configured. -/
def notConfiguredDict : List (String × String) :=
  [("error", "Weather API key not configured"),
   ("temperature", "N/A"),
   ("conditions", "N/A"),
   ("description", "Weather API key not available")]

/-- The dictionary returned on lines 112-116 of app.py for a
RequestException. -/
def fetchFailedDict : List (String × String) :=
  [("error", "Unable to fetch weather data"),
   ("temperature", "N/A"),
   ("conditions", "Error fetching weather data")]

/-- The dictionary returned on lines 119-123 of app.py for any other
exception. -/
def processFailedDict : List (String × String) :=
  [("error", "Unable to process weather data"),
   ("temperature", "N/A"),
   ("conditions", "Error processing weather data")]

/-- Embedding of get_weather_data (lines 68-123 of app.py). The result
pairs the returned dictionary with the number of network requests issued.
raise_for_status raises HTTPError, a RequestException, for a 4xx or 5xx
status; an undecodable body raises a JSONDecodeError, also a
RequestException; a missing key path while building the success dictionary
raises a generic exception. -/
def get_weather_data (apiKey : String) (provider : ℚ → ℚ → ProviderOutcome)
    (lat lon : ℚ) : List (String × String) × ℕ :=
  if apiKey = "" then (notConfiguredDict, 0)
  else
    match provider lat lon with
    | ProviderOutcome.netError => (fetchFailedDict, 1)
    | ProviderOutcome.response status body =>
      if 400 ≤ status ∧ status < 600 then (fetchFailedDict, 1)
      else
        match body with
        | none => (fetchFailedDict, 1)
        | some j =>
          match parseWeather j with
          | none => (processFailedDict, 1)
          | some r => (successDict r, 1)

/-- Whether a returned weather dictionary carries the error key. -/
def hasError (d : List (String × String)) : Bool :=
  d.any fun p => p.1 == "error"

/-- Conditions under which the lookup embodied by get_weather_data
succeeds: a configured key, a response that raise_for_status accepts, a
decodable body, and all five key paths present. -/
def lookupOk (apiKey : String) (o : ProviderOutcome) : Bool :=
  (!(apiKey == "")) &&
    match o with
    | ProviderOutcome.response status (some j) =>
      (!(decide (400 ≤ status ∧ status < 600))) && (parseWeather j).isSome
    | _ => false

/-- One element of the weather_data list built on lines 278-285 of
app.py. -/
structure EnrichedEntry where
  location : String
  lat : ℚ
  lon : ℚ
  weather : List (String × String)
deriving DecidableEq

/-- The enrichment loop of lines 278-285 of app.py over an abstract
weather lookup. -/
def enrichWaypoints (f : ℚ → ℚ → List (String × String))
    (wps : List Waypoint) : List EnrichedEntry :=
  wps.map fun wp =>
    { location := wp.address, lat := wp.lat, lon := wp.lon, weather := f wp.lat wp.lon }

/-- The successful response body of lines 288-295 of app.py. -/
structure RouteResponse where
  success : Bool
  distance : String
  duration : String
  weather_data : List EnrichedEntry
deriving DecidableEq

/-- Embedding of route_weather after a successful directions call
(lines 220-306 of app.py): waypoint extraction, then enrichment; an
exception anywhere is caught by the handler on lines 308-313. -/
def routeWeatherCore (legs : List RouteLeg)
    (f : ℚ → ℚ → List (String × String)) : Except String RouteResponse :=
  match legs with
  | [] => Except.error "IndexError: list index out of range"
  | l0 :: rest =>
    match extractWaypoints (l0 :: rest) with
    | Except.error e => Except.error e
    | Except.ok wps =>
      Except.ok
        { success := true
          distance := l0.distance
          duration := l0.duration
          weather_data := enrichWaypoints f wps }

/-- HTTP status of the embedded handler: 200 on success, 500 when the
catch-all of lines 308-313 of app.py fires. -/
def httpStatus : Except String RouteResponse → ℕ
  | Except.ok _ => 200
  | Except.error _ => 500

/-- Example steps used in concrete instantiations. -/
def mkStep (la lo : ℚ) : RouteStep :=
  { end_lat := la, end_lng := lo, html_instructions := some "turn" }

/-- Example waypoint used in concrete instantiations. -/
def mkWp (s : String) (la lo : ℚ) : Waypoint :=
  { address := s, lat := la, lon := lo }

/-- Eleven waypoints with pairwise distinct coordinate keys. -/
def wps11 : List Waypoint :=
  (List.range 11).map fun i : ℕ => mkWp "w" (i : ℚ) 0

lemma pyRound4_intCast (n : ℤ) : pyRound4 ((n : ℚ)) = ((n : ℚ)) := by
  unfold pyRound4 pyRoundInt
  have h : ((n : ℚ)) * 10000 = ((n * 10000 : ℤ) : ℚ) := by
    push_cast
    ring
  rw [h, Int.floor_intCast]
  norm_num

lemma pyRound4_natCast (n : ℕ) : pyRound4 ((n : ℚ)) = ((n : ℚ)) := by
  have h : ((n : ℚ)) = (((n : ℤ) : ℚ)) := by push_cast; ring
  rw [h, pyRound4_intCast]

lemma dedupAux_eq_self (ws : List Waypoint) :
    ∀ seen, (ws.map coordKey).Nodup → (∀ k ∈ ws.map coordKey, k ∉ seen) →
      dedupAux seen ws = ws := by
  induction ws with
  | nil => intro seen _ _; rfl
  | cons w t ih =>
    intro seen hnd hdisj
    rw [List.map_cons, List.nodup_cons] at hnd
    have hw : coordKey w ∉ seen :=
      hdisj (coordKey w) (by simp)
    unfold dedupAux
    rw [if_neg hw, ih (coordKey w :: seen) hnd.2]
    intro k hk
    rw [List.mem_cons]
    push_neg
    exact ⟨fun he => hnd.1 (he ▸ hk), hdisj k (List.mem_cons_of_mem _ hk)⟩

lemma dedup_eq_self_of_nodup_keys (ws : List Waypoint)
    (h : (ws.map coordKey).Nodup) : dedup ws = ws :=
  dedupAux_eq_self ws [] h (by simp)

lemma filterMap_getElem?_shift {α : Type} (a : α) (l : List α) :
    ∀ is : List ℕ, (∀ j ∈ is, 1 ≤ j) →
      (is.filterMap fun i => (a :: l)[i]?) =
        ((is.map fun i => i - 1).filterMap fun i => l[i]?) := by
  intro is h
  induction is with
  | nil => rfl
  | cons j t ih =>
    have hj : 1 ≤ j := h j (List.mem_cons_self j t)
    obtain ⟨m, rfl⟩ : ∃ m, j = m + 1 := ⟨j - 1, by omega⟩
    have hrest := ih fun x hx => h x (List.mem_cons_of_mem _ hx)
    cases hlm : l[m]? with
    | none =>
      simp [List.filterMap_cons, hlm, hrest]
    | some b =>
      simp [List.filterMap_cons, hlm, hrest]

lemma filterMap_getElem?_sublist {α : Type} :
    ∀ (l : List α) (is : List ℕ), is.Pairwise (· < ·) →
      List.Sublist (is.filterMap fun i => l[i]?) l := by
  intro l
  induction l with
  | nil =>
    intro is _
    have hnil : (is.filterMap fun i => ([] : List α)[i]?) = [] := by
      induction is with
      | nil => rfl
      | cons j t ih => simp [List.filterMap_cons, ih]
    rw [hnil]
  | cons a l ih =>
    intro is hp
    cases is with
    | nil => exact List.nil_sublist _
    | cons j t =>
      rcases List.pairwise_cons.mp hp with ⟨hjt, hpt⟩
      by_cases hj : j = 0
      · subst hj
        have ht1 : ∀ x ∈ t, 1 ≤ x := fun x hx => hjt x hx
        rw [List.filterMap_cons]
        simp only [List.getElem?_cons_zero]
        rw [filterMap_getElem?_shift a l t ht1]
        refine List.Sublist.cons₂ a (ih _ ?_)
        rw [List.pairwise_map]
        refine hpt.imp_of_mem fun hx hy hlt => ?_
        have := ht1 _ hx
        omega
      · have h1 : ∀ x ∈ j :: t, 1 ≤ x := by
          intro x hx
          rcases List.mem_cons.mp hx with rfl | hx
          · omega
          · have := hjt x hx; omega
        rw [filterMap_getElem?_shift a l (j :: t) h1]
        refine List.Sublist.cons a (ih _ ?_)
        rw [List.pairwise_map]
        refine hp.imp_of_mem fun hx hy hlt => ?_
        have := h1 _ hx
        omega

lemma filterMap_getElem?_length {α : Type} (l : List α) :
    ∀ is : List ℕ, (∀ i ∈ is, i < l.length) →
      (is.filterMap fun i => l[i]?).length = is.length := by
  intro is h
  induction is with
  | nil => rfl
  | cons j t ih =>
    have hj : j < l.length := h j (List.mem_cons_self j t)
    have hrest := ih fun x hx => h x (List.mem_cons_of_mem _ hx)
    simp [List.filterMap_cons, List.getElem?_eq_getElem hj, hrest]

/-- C2 counterexample: for a two-step leg the sampler keeps only step 0,
not every step, because step_interval is len(steps), not 1. -/
theorem c2_counterexample :
    sampleSteps [mkStep 1 1, mkStep 2 2] = Except.ok [mkStep 1 1] ∧
      ([mkStep 1 1] : List RouteStep) ≠ [mkStep 1 1, mkStep 2 2] :=
  ⟨rfl, by decide⟩

/-- C2 amended: for every leg whose step count N satisfies 1 ≤ N ≤ 5, the
sampler uses interval = N, so it selects exactly step index 0; only that
first step's end-location and instruction become a waypoint candidate, and
every step is selected only when N = 1. -/
theorem c2_amended (steps : List RouteStep) (h1 : 1 ≤ steps.length)
    (h5 : steps.length ≤ 5) :
    sampleSteps steps = Except.ok (steps.take 1) := by
  have hsi : stepInterval steps.length = steps.length := by
    unfold stepInterval
    rw [if_neg (by omega)]
  have hrl : rangeLen 0 steps.length steps.length = 1 := by
    unfold rangeLen
    rw [if_neg (by omega)]
    exact Nat.div_eq_of_lt_le (by omega) (by omega)
  unfold sampleSteps sampleIndices pyRange
  rw [hsi, if_neg (by omega : ¬ steps.length = 0), hrl, List.range'_one]
  cases steps with
  | nil => simp at h1
  | cons a t => simp

/-- C2 witness: at a concrete three-step leg the amended theorem yields
exactly the first step. -/
theorem c2_witness :
    sampleSteps [mkStep 1 1, mkStep 2 2, mkStep 3 3] = Except.ok [mkStep 1 1] :=
  c2_amended [mkStep 1 1, mkStep 2 2, mkStep 3 3] (by decide) (by decide)

/-- C4 counterexample: a leg with 6 steps gets interval 1 and all 6 steps
are sampled, violating the claimed upper bound of 5. -/
theorem c4_counterexample :
    sampleIndices 6 = Except.ok [0, 1, 2, 3, 4, 5] ∧
      ¬ (([0, 1, 2, 3, 4, 5] : List ℕ).length ≤ 5) :=
  ⟨rfl, by decide⟩

/-- C4 amended: for every leg with N > 5 steps the sampler selects indices
0, interval, 2 interval, ... below N with interval = max(1, N / 5); the
number of sampled steps is exactly the ceiling of N / interval, which lies
between 5 and 9 inclusive, and the selection always includes index 0. -/
theorem c4_amended (n : ℕ) (h : 5 < n) :
    ∃ l, sampleIndices n = Except.ok l ∧
      l.length = (n + n / 5 - 1) / (n / 5) ∧
      5 ≤ l.length ∧ l.length ≤ 9 ∧ l.head? = some 0 ∧ 0 ∈ l := by
  have hdiv : 5 * (n / 5) ≤ n ∧ n < 5 * (n / 5) + 5 := by omega
  have hk1 : 1 ≤ n / 5 := by omega
  have hsi : stepInterval n = n / 5 := by
    unfold stepInterval
    rw [if_pos h]
    omega
  have hrl : rangeLen 0 n (n / 5) = (n + n / 5 - 1) / (n / 5) := by
    unfold rangeLen
    rw [if_neg (by omega)]
    simp
  have hge : 5 ≤ (n + n / 5 - 1) / (n / 5) :=
    (Nat.le_div_iff_mul_le (by omega)).mpr (by omega)
  have hlt : (n + n / 5 - 1) / (n / 5) < 10 :=
    (Nat.div_lt_iff_lt_mul (by omega)).mpr (by omega)
  refine ⟨List.range' 0 ((n + n / 5 - 1) / (n / 5)) (n / 5), ?_, ?_, ?_, ?_, ?_, ?_⟩
  · unfold sampleIndices pyRange
    rw [hsi, if_neg (by omega), hrl]
  · simp
  · simpa using hge
  · simp only [List.length_range']
    omega
  · obtain ⟨m, hm⟩ : ∃ m, (n + n / 5 - 1) / (n / 5) = m + 1 :=
      ⟨(n + n / 5 - 1) / (n / 5) - 1, by omega⟩
    rw [hm, List.range'_succ]
    rfl
  · exact List.mem_range'.mpr ⟨0, by omega, by simp⟩

/-- C4 witness: at a concrete leg of 7 steps the amended theorem applies. -/
theorem c4_witness :
    ∃ l, sampleIndices 7 = Except.ok l ∧
      l.length = (7 + 7 / 5 - 1) / (7 / 5) ∧
      5 ≤ l.length ∧ l.length ≤ 9 ∧ l.head? = some 0 ∧ 0 ∈ l :=
  c4_amended 7 (by decide)

/-- C9: downsampling is a no-op on sequences of length at most 10, and is
therefore idempotent whenever its first application yields at most 10
elements. -/
theorem c9_downsample_noop :
    (∀ l : List Waypoint, l.length ≤ 10 → downsample l = l) ∧
      (∀ l : List Waypoint, (downsample l).length ≤ 10 →
        downsample (downsample l) = downsample l) := by
  have h1 : ∀ l : List Waypoint, l.length ≤ 10 → downsample l = l := by
    intro l h
    unfold downsample
    rw [if_neg (by omega)]
  exact ⟨h1, fun l h => h1 _ h⟩

/-- C9 witness: a concrete two-waypoint sequence is left unchanged, twice. -/
theorem c9_witness :
    downsample [mkWp "a" 1 2, mkWp "b" 3 4] = [mkWp "a" 1 2, mkWp "b" 3 4] ∧
      downsample (downsample [mkWp "a" 1 2, mkWp "b" 3 4]) =
        downsample [mkWp "a" 1 2, mkWp "b" 3 4] :=
  ⟨c9_downsample_noop.1 _ (by decide), c9_downsample_noop.2 _ (by decide)⟩

/-- C1 counterexample: eleven waypoints with pairwise distinct dedup keys
pass deduplication unchanged, and the downsampling step returns all eleven
of them, exceeding the claimed cap of 10 (step = 11 // 9 = 1 keeps every
interior index). -/
theorem c1_counterexample :
    dedup wps11 = wps11 ∧ ¬ ((downsample (dedup wps11)).length ≤ 10) := by
  have hkeys : (wps11.map coordKey).Nodup := by
    unfold wps11
    rw [List.map_map]
    refine List.Nodup.map ?_ (List.nodup_range 11)
    intro a b hab
    simp only [Function.comp_apply, mkWp, coordKey, pyRound4_natCast, Prod.mk.injEq] at hab
    exact_mod_cast hab.1
  have hded : dedup wps11 = wps11 := dedup_eq_self_of_nodup_keys _ hkeys
  have hlen11 : wps11.length = 11 := by simp [wps11]
  refine ⟨hded, ?_⟩
  rw [hded]
  have hdown : downsample wps11 = (downsampleIdx wps11.length).filterMap fun i => wps11[i]? := by
    unfold downsample
    rw [if_pos (by omega)]
  rw [hdown, filterMap_getElem?_length _ _ (by rw [hlen11]; decide), hlen11]
  decide

/-- C1 amended: for a deduplicated sequence of length M > 10 the
downsampling step returns exactly the first element, the interior elements
at indices step, 2 step, ... below M - 1 with step = M / 9, and the last
element; the output is a subsequence of the input that keeps the original
first and last elements, and its length is 2 plus the number of interior
indices, which can exceed 10. -/
theorem c1_amended (l : List Waypoint) (h : 10 < l.length) :
    downsample l = ((downsampleIdx l.length).filterMap fun i => l[i]?) ∧
      List.Sublist (downsample l) l ∧
      (downsample l).head? = l.head? ∧
      (downsample l).getLast? = l.getLast? ∧
      (downsample l).length =
        2 + rangeLen (l.length / 9) (l.length - 1) (l.length / 9) := by
  have hk1 : 1 ≤ l.length / 9 := by omega
  have hkn : l.length / 9 < l.length - 1 := by omega
  have hm : rangeLen (l.length / 9) (l.length - 1) (l.length / 9) =
      (l.length - 2) / (l.length / 9) := by
    unfold rangeLen
    rw [if_neg (by omega)]
    have he : l.length - 1 - l.length / 9 + l.length / 9 - 1 = l.length - 2 := by
      omega
    rw [he]
  have hmid_le : ∀ x ∈ List.range' (l.length / 9)
      (rangeLen (l.length / 9) (l.length - 1) (l.length / 9)) (l.length / 9),
      x ≤ l.length - 2 := by
    intro x hx
    rw [hm] at hx
    obtain ⟨i, hi, rfl⟩ := List.mem_range'.mp hx
    calc l.length / 9 + l.length / 9 * i
        = l.length / 9 * (i + 1) := by ring
      _ ≤ l.length / 9 * ((l.length - 2) / (l.length / 9)) :=
          Nat.mul_le_mul_left _ (by omega)
      _ = (l.length - 2) / (l.length / 9) * (l.length / 9) := by ring
      _ ≤ l.length - 2 := Nat.div_mul_le_self _ _
  have hpair : (downsampleIdx l.length).Pairwise (· < ·) := by
    unfold downsampleIdx
    rw [List.pairwise_cons]
    constructor
    · intro x hx
      rcases List.mem_append.mp hx with hx | hx
      · obtain ⟨i, hi, rfl⟩ := List.mem_range'.mp hx
        omega
      · simp only [List.mem_singleton] at hx
        omega
    · rw [List.pairwise_append]
      refine ⟨List.pairwise_lt_range' _ _ _ (by omega), by simp, ?_⟩
      intro a ha b hb
      simp only [List.mem_singleton] at hb
      have := hmid_le a ha
      omega
  have hlt : ∀ i ∈ downsampleIdx l.length, i < l.length := by
    unfold downsampleIdx
    intro i hi
    rcases List.mem_cons.mp hi with rfl | hi
    · omega
    rcases List.mem_append.mp hi with hi | hi
    · have := hmid_le i hi
      omega
    · simp only [List.mem_singleton] at hi
      omega
  have hdef : downsample l = (downsampleIdx l.length).filterMap fun i => l[i]? := by
    unfold downsample
    rw [if_pos h]
  refine ⟨hdef, ?_, ?_, ?_, ?_⟩
  · rw [hdef]
    exact filterMap_getElem?_sublist l _ hpair
  · obtain ⟨a, t, rfl⟩ : ∃ a t, l = a :: t := by
      cases l with
      | nil => simp at h
      | cons a t => exact ⟨a, t, rfl⟩
    rw [hdef]
    unfold downsampleIdx
    rw [List.filterMap_cons]
    simp
  · obtain ⟨b, hb⟩ : ∃ b, l[l.length - 1]? = some b := by
      rw [List.getElem?_eq_getElem (by omega)]
      exact ⟨_, rfl⟩
    have hsplit : downsampleIdx l.length =
        (0 :: List.range' (l.length / 9)
          (rangeLen (l.length / 9) (l.length - 1) (l.length / 9))
          (l.length / 9)) ++ [l.length - 1] := rfl
    rw [hdef, hsplit, List.filterMap_append]
    have hlastfm : ([l.length - 1].filterMap fun i => l[i]?) = [b] := by
      simp [List.filterMap_cons, hb]
    rw [hlastfm, List.getLast?_concat, List.getLast?_eq_getElem?, hb]
  · rw [hdef, filterMap_getElem?_length l _ hlt]
    unfold downsampleIdx
    simp only [List.length_cons, List.length_append, List.length_range',
      List.length_nil]
    omega

/-- C1 witness: the amended theorem applied to the concrete eleven-element
deduplicated sequence. -/
theorem c1_witness :
    List.Sublist (downsample wps11) wps11 ∧
      (downsample wps11).head? = wps11.head? ∧
      (downsample wps11).getLast? = wps11.getLast? :=
  ⟨(c1_amended wps11 (by decide)).2.1, (c1_amended wps11 (by decide)).2.2.1,
    (c1_amended wps11 (by decide)).2.2.2.1⟩

lemma dedupAux_sublist : ∀ (ws : List Waypoint) (seen : List (ℚ × ℚ)),
    List.Sublist (dedupAux seen ws) ws := by
  intro ws
  induction ws with
  | nil => intro seen; exact List.Sublist.refl []
  | cons w t ih =>
    intro seen
    unfold dedupAux
    by_cases h : coordKey w ∈ seen
    · rw [if_pos h]
      exact List.Sublist.cons w (ih seen)
    · rw [if_neg h]
      exact List.Sublist.cons₂ w (ih _)

lemma dedupAux_keys_nodup : ∀ (ws : List Waypoint) (seen : List (ℚ × ℚ)),
    ((dedupAux seen ws).map coordKey).Nodup ∧
      ∀ k ∈ (dedupAux seen ws).map coordKey, k ∉ seen := by
  intro ws
  induction ws with
  | nil => intro seen; simp [dedupAux]
  | cons w t ih =>
    intro seen
    unfold dedupAux
    by_cases h : coordKey w ∈ seen
    · rw [if_pos h]
      exact ih seen
    · rw [if_neg h]
      obtain ⟨hnd, hdisj⟩ := ih (coordKey w :: seen)
      rw [List.map_cons, List.nodup_cons]
      refine ⟨⟨fun hmem => (hdisj _ hmem) (List.mem_cons_self _ _), hnd⟩, ?_⟩
      intro k hk
      rw [List.mem_cons] at hk
      rcases hk with rfl | hk
      · exact h
      · exact fun hkseen => (hdisj k hk) (List.mem_cons_of_mem _ hkseen)

lemma dedupAux_covers : ∀ (ws : List Waypoint) (seen : List (ℚ × ℚ)),
    ∀ w ∈ ws, coordKey w ∈ seen ∨
      ∃ v ∈ dedupAux seen ws, coordKey v = coordKey w := by
  intro ws
  induction ws with
  | nil => intro seen w hw; simp at hw
  | cons w t ih =>
    intro seen x hx
    unfold dedupAux
    by_cases h : coordKey w ∈ seen
    · rw [if_pos h]
      rcases List.mem_cons.mp hx with rfl | hx
      · exact Or.inl h
      · exact ih seen x hx
    · rw [if_neg h]
      rcases List.mem_cons.mp hx with rfl | hx
      · exact Or.inr ⟨x, List.mem_cons_self _ _, rfl⟩
      · rcases ih (coordKey w :: seen) x hx with hseen | ⟨v, hv, hkv⟩
        · rcases List.mem_cons.mp hseen with heq | hseen
          · exact Or.inr ⟨w, List.mem_cons_self _ _, heq.symm⟩
          · exact Or.inl hseen
        · exact Or.inr ⟨v, List.mem_cons_of_mem _ hv, hkv⟩

lemma dedupAux_first_occ : ∀ (ws : List Waypoint) (seen : List (ℚ × ℚ)),
    ∀ v ∈ dedupAux seen ws,
      coordKey v ∉ seen ∧ ∃ i, ∃ h : i < ws.length, ws.get ⟨i, h⟩ = v ∧
        ∀ j, ∀ hj : j < i,
          coordKey (ws.get ⟨j, Nat.lt_trans hj h⟩) ≠ coordKey v := by
  intro ws
  induction ws with
  | nil => intro seen v hv; simp [dedupAux] at hv
  | cons w t ih =>
    intro seen v hv
    unfold dedupAux at hv
    by_cases h : coordKey w ∈ seen
    · rw [if_pos h] at hv
      obtain ⟨hns, i, hi, hgl, hfirst⟩ := ih seen v hv
      refine ⟨hns, i + 1, Nat.succ_lt_succ hi, hgl, ?_⟩
      intro j hj
      cases j with
      | zero => exact fun heq => hns (heq ▸ h)
      | succ j => exact hfirst j (by omega)
    · rw [if_neg h] at hv
      rcases List.mem_cons.mp hv with rfl | hv
      · exact ⟨h, 0, Nat.succ_pos _, rfl, fun j hj => absurd hj (Nat.not_lt_zero j)⟩
      · obtain ⟨hns, i, hi, hgl, hfirst⟩ := ih _ v hv
        have hnsw : coordKey v ∉ seen := fun hk => hns (List.mem_cons_of_mem _ hk)
        have hneq : coordKey v ≠ coordKey w := fun he => hns (he ▸ List.mem_cons_self _ _)
        refine ⟨hnsw, i + 1, Nat.succ_lt_succ hi, hgl, ?_⟩
        intro j hj
        cases j with
        | zero => exact fun heq => hneq heq.symm
        | succ j => exact hfirst j (by omega)

/-- C3: the deduplication pass never keeps two waypoints with an equal
coordinate key, its output is a subsequence of the input, every input key
is represented, and every kept waypoint sits at an input index before
which its key never occurs (so it is the first occurrence of its key). -/
theorem c3_dedup (ws : List Waypoint) :
    ((dedup ws).map coordKey).Nodup ∧
      List.Sublist (dedup ws) ws ∧
      (∀ w ∈ ws, ∃ v ∈ dedup ws, coordKey v = coordKey w) ∧
      (∀ v ∈ dedup ws, ∃ i, ∃ h : i < ws.length, ws.get ⟨i, h⟩ = v ∧
        ∀ j, ∀ hj : j < i,
          coordKey (ws.get ⟨j, Nat.lt_trans hj h⟩) ≠ coordKey v) := by
  refine ⟨(dedupAux_keys_nodup ws []).1, dedupAux_sublist ws [], ?_, ?_⟩
  · intro w hw
    rcases dedupAux_covers ws [] w hw with hmem | h
    · simp at hmem
    · exact h
  · intro v hv
    exact (dedupAux_first_occ ws [] v hv).2

/-- C3 witness: on a two-waypoint input whose elements share a coordinate
key, the theorem yields a kept representative of the duplicated key. -/
theorem c3_witness :
    ∃ v ∈ dedup [mkWp "a" 1 2, mkWp "b" 1 2],
      coordKey v = coordKey (mkWp "b" 1 2) :=
  (c3_dedup [mkWp "a" 1 2, mkWp "b" 1 2]).2.2.1 (mkWp "b" 1 2) (by simp)

/-- Example leg with no steps. -/
def emptyLeg : RouteLeg :=
  { start_address := "A", start_lat := 0, start_lng := 0,
    end_address := "B", end_lat := 3, end_lng := 3,
    distance := "5 km", duration := "10 min", steps := [] }

/-- C8: on a leg with zero steps the sampler raises (range step is
len(steps) = 0, and range with a zero stride raises ValueError), so
waypoint extraction aborts and the catch-all handler turns the request
into an HTTP 500 instead of skipping the empty leg. -/
theorem c8_empty_leg_crashes :
    sampleIndices 0 = Except.error "ValueError: range() arg 3 must not be zero" ∧
      extractWaypoints [emptyLeg] =
        Except.error "ValueError: range() arg 3 must not be zero" ∧
      httpStatus (routeWeatherCore [emptyLeg] fun _ _ => fetchFailedDict) = 500 :=
  ⟨rfl, rfl, rfl⟩

/-- Example step and leg for concrete end-to-end instantiations. -/
def stepA : RouteStep :=
  { end_lat := 1, end_lng := 1, html_instructions := some "turn" }

/-- Example one-step leg. -/
def legA : RouteLeg :=
  { start_address := "S", start_lat := 0, start_lng := 0,
    end_address := "E", end_lat := 2, end_lng := 2,
    distance := "5 km", duration := "10 min", steps := [stepA] }

/-- The waypoints route_weather extracts from the one-leg route [legA]. -/
def wpsA : List Waypoint :=
  [mkWp "S" 0 0, mkWp "turn" 1 1, mkWp "E" 2 2]

lemma pyRound4_zero : pyRound4 0 = 0 := by
  unfold pyRound4 pyRoundInt
  norm_num

lemma pyRound4_one : pyRound4 1 = 1 := by
  unfold pyRound4 pyRoundInt
  norm_num

lemma pyRound4_two : pyRound4 2 = 2 := by
  unfold pyRound4 pyRoundInt
  norm_num

lemma dedup_wpsA : dedup wpsA = wpsA := by
  refine dedup_eq_self_of_nodup_keys _ ?_
  have hkeys : wpsA.map coordKey = [(0, 0), (1, 1), (2, 2)] := by
    simp [wpsA, coordKey, mkWp, pyRound4_zero, pyRound4_one, pyRound4_two]
  rw [hkeys]
  decide

lemma downsample_wpsA : downsample wpsA = wpsA := by
  unfold downsample
  rw [if_neg (by decide)]

lemma extract_legA : extractWaypoints [legA] = Except.ok wpsA := by
  have h : extractWaypoints [legA] = Except.ok (downsample (dedup wpsA)) := rfl
  rw [h, dedup_wpsA, downsample_wpsA]

lemma core_legA (f : ℚ → ℚ → List (String × String)) :
    routeWeatherCore [legA] f =
      Except.ok
        { success := true, distance := "5 km", duration := "10 min",
          weather_data := enrichWaypoints f wpsA } := by
  simp only [routeWeatherCore]
  rw [extract_legA]
  rfl

/-- C5: if among the reduced waypoints exactly one has a failing weather
lookup, enrichment still yields one entry per waypoint in input order,
with exactly one failure marker and N - 1 successes, and any route whose
extraction produced those waypoints is still answered with HTTP 200. -/
theorem c5_failure_isolation (f : ℚ → ℚ → List (String × String))
    (wps : List Waypoint)
    (hone : wps.countP (fun wp => hasError (f wp.lat wp.lon)) = 1) :
    (enrichWaypoints f wps).length = wps.length ∧
      ((enrichWaypoints f wps).map fun e => (e.location, e.lat, e.lon)) =
        (wps.map fun w => (w.address, w.lat, w.lon)) ∧
      ((enrichWaypoints f wps).countP fun e => hasError e.weather) = 1 ∧
      ((enrichWaypoints f wps).countP fun e => !(hasError e.weather)) =
        wps.length - 1 ∧
      (∀ legs, extractWaypoints legs = Except.ok wps →
        httpStatus (routeWeatherCore legs f) = 200) := by
  have hcnt : ((enrichWaypoints f wps).countP fun e => hasError e.weather) =
      wps.countP (fun wp => hasError (f wp.lat wp.lon)) := by
    simp [enrichWaypoints, List.countP_map]
    rfl
  have hlen : (enrichWaypoints f wps).length = wps.length := by
    simp [enrichWaypoints]
  have hsplit :=
    List.length_eq_countP_add_countP (fun e => hasError e.weather)
      (enrichWaypoints f wps)
  have hbridge : ((enrichWaypoints f wps).countP fun e => !(hasError e.weather)) =
      (enrichWaypoints f wps).countP fun a => decide ¬(hasError a.weather = true) := by
    congr 1
    funext a
    cases hasError a.weather <;> rfl
  refine ⟨hlen, ?_, by omega, by omega, ?_⟩
  · simp [enrichWaypoints, List.map_map]
  · intro legs hleg
    cases legs with
    | nil => simp [extractWaypoints] at hleg
    | cons l0 rest => simp [routeWeatherCore, hleg, httpStatus]

/-- Weather lookup that fails exactly at latitude 0 and succeeds
elsewhere. -/
def fOne : ℚ → ℚ → List (String × String) := fun la _ =>
  if la = 0 then fetchFailedDict
  else successDict
    { temp := 20, conditionMain := "Clear", conditionDescription := "clear sky",
      humidity := 50, wind := 3 }

/-- C5 witness: on the extracted waypoints of the one-leg route, with the
lookup failing exactly at the start waypoint, enrichment reports exactly
one failure and the request is answered with HTTP 200. -/
theorem c5_witness :
    ((enrichWaypoints fOne wpsA).countP fun e => hasError e.weather) = 1 ∧
      httpStatus (routeWeatherCore [legA] fOne) = 200 :=
  ⟨(c5_failure_isolation fOne wpsA (by decide)).2.2.1,
   (c5_failure_isolation fOne wpsA (by decide)).2.2.2.2 [legA] extract_legA⟩

/-- C6: with an absent weather credential every lookup immediately returns
the not-configured marker with zero network requests, every enriched entry
carries that marker, and so does every entry of any successful
route_weather response. -/
theorem c6_not_configured (provider : ℚ → ℚ → ProviderOutcome) :
    (∀ lat lon : ℚ, get_weather_data "" provider lat lon = (notConfiguredDict, 0)) ∧
      (∀ wps : List Waypoint,
        ∀ e ∈ enrichWaypoints
          (fun la lo => (get_weather_data "" provider la lo).1) wps,
          e.weather = notConfiguredDict) ∧
      (∀ legs resp,
        routeWeatherCore legs
          (fun la lo => (get_weather_data "" provider la lo).1) =
            Except.ok resp →
        ∀ e ∈ resp.weather_data, e.weather = notConfiguredDict) := by
  have h1 : ∀ lat lon : ℚ,
      get_weather_data "" provider lat lon = (notConfiguredDict, 0) := by
    intro lat lon
    unfold get_weather_data
    rw [if_pos rfl]
  have h2 : ∀ wps : List Waypoint,
      ∀ e ∈ enrichWaypoints
        (fun la lo => (get_weather_data "" provider la lo).1) wps,
        e.weather = notConfiguredDict := by
    intro wps e he
    simp only [enrichWaypoints, List.mem_map] at he
    obtain ⟨wp, hwp, rfl⟩ := he
    simp [h1]
  refine ⟨h1, h2, ?_⟩
  intro legs resp hok e he
  cases legs with
  | nil => simp [routeWeatherCore] at hok
  | cons l0 rest =>
    simp only [routeWeatherCore] at hok
    cases hex : extractWaypoints (l0 :: rest) with
    | error msg =>
      rw [hex] at hok
      simp at hok
    | ok wps =>
      rw [hex] at hok
      injection hok with h
      rw [← h] at he
      exact h2 wps e he

/-- Provider oracle that always reports a network error. -/
def pNet : ℚ → ℚ → ProviderOutcome := fun _ _ => ProviderOutcome.netError

/-- Weather lookup with an absent credential over pNet. -/
def fNC : ℚ → ℚ → List (String × String) := fun la lo =>
  (get_weather_data "" pNet la lo).1

/-- First entry of the enrichment of wpsA under fNC. -/
def entryNC : EnrichedEntry :=
  { location := "S", lat := 0, lon := 0, weather := (get_weather_data "" pNet 0 0).1 }

/-- C6 witness: the theorem applied at a concrete provider, coordinate,
and one-leg route. -/
theorem c6_witness :
    get_weather_data "" pNet 3 4 = (notConfiguredDict, 0) ∧
      entryNC.weather = notConfiguredDict :=
  ⟨(c6_not_configured pNet).1 3 4,
   (c6_not_configured pNet).2.2 [legA]
     { success := true, distance := "5 km", duration := "10 min",
       weather_data := enrichWaypoints fNC wpsA }
     (core_legA fNC) entryNC (List.mem_cons_self _ _)⟩

/-- C7 counterexample: the not-configured observation carries the failure
field together with the success-shape fields temperature, conditions and
description, so the two shapes are not mutually exclusive. -/
theorem c7_counterexample :
    hasError ((get_weather_data "" pNet 0 0).1) = true ∧
      "temperature" ∈ ((get_weather_data "" pNet 0 0).1).map Prod.fst ∧
      "conditions" ∈ ((get_weather_data "" pNet 0 0).1).map Prod.fst ∧
      "description" ∈ ((get_weather_data "" pNet 0 0).1).map Prod.fst := by
  decide

/-- C7 amended: every observation either is a success reading with exactly
the five reading keys and no error key, or carries the error key as
discriminant; failure markers additionally carry placeholder temperature
and conditions fields, so presence of the error key, not absence of
success fields, distinguishes the shapes. -/
theorem c7_amended (apiKey : String) (provider : ℚ → ℚ → ProviderOutcome)
    (lat lon : ℚ) :
    (hasError ((get_weather_data apiKey provider lat lon).1) = false ∧
      ((get_weather_data apiKey provider lat lon).1).map Prod.fst =
        ["temperature", "conditions", "description", "humidity", "wind_speed"]) ∨
    (hasError ((get_weather_data apiKey provider lat lon).1) = true ∧
      "error" ∈ ((get_weather_data apiKey provider lat lon).1).map Prod.fst ∧
      "temperature" ∈ ((get_weather_data apiKey provider lat lon).1).map Prod.fst ∧
      "conditions" ∈ ((get_weather_data apiKey provider lat lon).1).map Prod.fst) := by
  unfold get_weather_data
  by_cases hk : apiKey = ""
  · rw [if_pos hk]
    right
    decide
  · rw [if_neg hk]
    cases provider lat lon with
    | netError =>
      right
      decide
    | response status body =>
      dsimp only
      by_cases hs : 400 ≤ status ∧ status < 600
      · rw [if_pos hs]
        right
        decide
      · rw [if_neg hs]
        cases body with
        | none =>
          right
          decide
        | some j =>
          dsimp only
          cases hp : parseWeather j with
          | none =>
            right
            decide
          | some r =>
            left
            constructor
            · simp [successDict, hasError]
            · simp [successDict]

/-- C10: get_weather_data returns a dictionary for every credential state
and provider outcome, always one of the four shapes; the dictionary
carries the error key exactly when the lookup did not succeed, and a
successful lookup yields the success dictionary, which never carries the
error key. -/
theorem c10_total (apiKey : String) (provider : ℚ → ℚ → ProviderOutcome)
    (lat lon : ℚ) :
    (hasError ((get_weather_data apiKey provider lat lon).1) = true ↔
      lookupOk apiKey (provider lat lon) = false) ∧
      (lookupOk apiKey (provider lat lon) = true →
        ∃ r, (get_weather_data apiKey provider lat lon).1 = successDict r ∧
          hasError (successDict r) = false) ∧
      ((get_weather_data apiKey provider lat lon).1 = notConfiguredDict ∨
        (get_weather_data apiKey provider lat lon).1 = fetchFailedDict ∨
        (get_weather_data apiKey provider lat lon).1 = processFailedDict ∨
        ∃ r, (get_weather_data apiKey provider lat lon).1 = successDict r) := by
  unfold get_weather_data lookupOk
  by_cases hk : apiKey = ""
  · rw [if_pos hk]
    subst hk
    refine ⟨by simp [hasError, notConfiguredDict], ?_, Or.inl rfl⟩
    simp
  · rw [if_neg hk]
    have hkb : (apiKey == "") = false := by
      simp [hk]
    cases provider lat lon with
    | netError =>
      refine ⟨by simp [hasError, fetchFailedDict], by simp, Or.inr (Or.inl rfl)⟩
    | response status body =>
      dsimp only
      by_cases hs : 400 ≤ status ∧ status < 600
      · rw [if_pos hs]
        cases body with
        | none =>
          refine ⟨?_, ?_, Or.inr (Or.inl rfl)⟩
          · simp [hasError, fetchFailedDict, hkb, hs]
          · simp [hkb, hs]
        | some j =>
          refine ⟨?_, ?_, Or.inr (Or.inl rfl)⟩
          · simp [hasError, fetchFailedDict, hkb, hs]
          · simp [hkb, hs]
      · rw [if_neg hs]
        cases body with
        | none =>
          refine ⟨?_, ?_, Or.inr (Or.inl rfl)⟩
          · simp [hasError, fetchFailedDict, hkb]
          · simp [hkb]
        | some j =>
          dsimp only
          cases hp : parseWeather j with
          | none =>
            refine ⟨?_, ?_, Or.inr (Or.inr (Or.inl rfl))⟩
            · simp [hasError, processFailedDict, hkb, hs, hp]
            · simp [hkb, hs, hp]
          | some r =>
            refine ⟨?_, ?_, Or.inr (Or.inr (Or.inr ⟨r, rfl⟩))⟩
            · simp [hasError, successDict, hkb, hs, hp]
            · intro _
              exact ⟨r, rfl, by simp [hasError, successDict]⟩

/-- Well-formed provider JSON for concrete instantiations. -/
def jGood : WeatherJson :=
  { mainTemp := some 20, mainHumidity := some 50, weatherMain := some "Clear",
    weatherDescription := some "clear sky", windSpeed := some 3 }

/-- Provider oracle that always answers 200 with a well-formed body. -/
def pGood : ℚ → ℚ → ProviderOutcome := fun _ _ =>
  ProviderOutcome.response 200 (some jGood)

/-- C10 witness: with a configured key and a well-formed 200 response the
theorem yields the success dictionary without the error key. -/
theorem c10_witness :
    ∃ r, (get_weather_data "k" pGood 1 2).1 = successDict r ∧
      hasError (successDict r) = false :=
  (c10_total "k" pGood 1 2).2.1 (by decide)

end RouteWeather
